import Mathlib

/-!
Verification of the browser-driven extraction core of the `music_analysis`
repository (`app/pkg/analysis.py`): the bounded page pool, the
`fetch_page` extraction session, the login check, the cookie loader and
the `analyze_music_url` orchestrator, shallowly embedded as pure Lean
functions over explicit state.

Page handles are modelled as natural numbers handed out by the pool
(`context.new_page()` returns a fresh handle).  The cooperative
single-threaded semantics of the Python code lets each asynchronous
operation be modelled as a pure state transformer; the oracles in
`FetchEnv` record the outcome of each external interaction (navigation,
the two scrape calls, the network responses delivered before the overall
timeout elapses).
-/

namespace MusicAnalysis

/-! ### Page pool (`PagePool` in `analysis.py`) -/

/-- Pool state: `pool` is the list of created page handles in creation
order (`self.pool`), `busy` the handles currently checked out
(`self.busy`), `nextId` the next fresh handle `context.new_page()` would
return, `maxPages` the configured capacity. -/
structure PoolState where
  maxPages : Nat
  pool : List Nat
  busy : List Nat
  nextId : Nat
deriving Repr, DecidableEq

/-- `PagePool(max_pages=n)`: empty pool. -/
def PoolState.init (n : Nat) : PoolState := ⟨n, [], [], 0⟩

/-- `PagePool.get_page`: return the first free page of the pool, else
create a new page while below capacity, else block (`none`: the caller
suspends on the condition variable and retries after a release). -/
def getPage (st : PoolState) : Option (Nat × PoolState) :=
  match st.pool.find? (fun p => !st.busy.contains p) with
  | some p => some (p, { st with busy := p :: st.busy })
  | none =>
    if st.pool.length < st.maxPages then
      some (st.nextId, { st with pool := st.pool ++ [st.nextId],
                                 busy := st.nextId :: st.busy,
                                 nextId := st.nextId + 1 })
    else none

/-- `PagePool.release`: remove the page from `busy` if it is there
(releasing an untracked handle is a no-op). -/
def release (p : Nat) (st : PoolState) : PoolState :=
  if st.busy.contains p then { st with busy := st.busy.erase p } else st

/-- `PagePool.close_all`: close every page and clear all state. -/
def closeAll (st : PoolState) : PoolState := { st with pool := [], busy := [] }

/-- A handle is free when it exists in the pool and is not busy. -/
def isFree (st : PoolState) (p : Nat) : Prop := p ∈ st.pool ∧ p ∉ st.busy

/-- The pool invariant: busy handles are pool handles, handles are
distinct, the pool never exceeds its capacity, and every created handle
is below the fresh-handle counter. -/
def Inv (st : PoolState) : Prop :=
  st.busy ⊆ st.pool ∧ st.pool.Nodup ∧ st.busy.Nodup ∧
  st.pool.length ≤ st.maxPages ∧ ∀ p ∈ st.pool, p < st.nextId

/-- One pool operation issued by a client: an acquisition attempt, a
release of a given handle, or `close_all`. -/
inductive PoolOp where
  | get : PoolOp
  | rel : Nat → PoolOp
  | close : PoolOp
deriving Repr, DecidableEq

/-- Effect of one operation on the pool state (a blocked acquisition
leaves the state unchanged: the caller is suspended). -/
def stepOp (st : PoolState) : PoolOp → PoolState
  | .get =>
    match getPage st with
    | some (_, st') => st'
    | none => st
  | .rel p => release p st
  | .close => closeAll st

/-- Run a sequence of pool operations. -/
def runOps (st : PoolState) (ops : List PoolOp) : PoolState :=
  ops.foldl stepOp st

/-! ### Responses and the response observer (`on_response`) -/

/-- A network response as seen by the observer: its URL and status. -/
structure Resp where
  url : String
  status : Nat
deriving Repr, DecidableEq

/-- A caller-supplied matcher.  Evaluating it may raise
(`Except.error`), which the observer must absorb. -/
def Matcher : Type := Resp → Except Unit Bool

/-- The single-shot result slot (`result_future`): `none` while pending,
`some url` once resolved. -/
def Slot : Type := Option String

/-- `on_response` in `fetch_page`: return immediately when the future is
done; otherwise evaluate `filter_func` (when supplied) inside a
`try`/`except` that logs and absorbs any exception; the first response
for which the matcher returns true resolves the future with its URL. -/
def on_response (filter_func : Option Matcher) (fut : Slot) (resp : Resp) : Slot :=
  match fut with
  | some u => some u
  | none =>
    match filter_func with
    | none => none
    | some f =>
      match f resp with
      | .ok true => some resp.url
      | .ok false => none
      | .error _ => none

/-- How many times one `on_response` invocation evaluates the matcher:
zero when the future is already done or no matcher was supplied
(short-circuit of `if filter_func and filter_func(resp)`), once
otherwise. -/
def matcherEvalCount (filter_func : Option Matcher) (fut : Slot) : Nat :=
  match fut with
  | some _ => 0
  | none =>
    match filter_func with
    | none => 0
    | some _ => 1

/-- Deliver a list of responses to the observer, recording for each
response how many times the matcher was evaluated on it; returns the
final slot and the per-response evaluation counts. -/
def deliverCounting (filter_func : Option Matcher) :
    Slot → List Resp → Slot × List Nat
  | fut, [] => (fut, [])
  | fut, r :: rs =>
    let c := matcherEvalCount filter_func fut
    let out := deliverCounting filter_func (on_response filter_func fut r) rs
    (out.1, c :: out.2)

/-- Final slot after delivering a list of responses. -/
def deliver (filter_func : Option Matcher) (fut : Slot) (rs : List Resp) : Slot :=
  rs.foldl (on_response filter_func) fut

/-- Whether the matcher accepts the response without raising. -/
def matchHit (f : Matcher) (r : Resp) : Bool :=
  match f r with
  | .ok true => true
  | .ok false => false
  | .error _ => false

/-- A matcher that accepts every response. -/
def alwaysTrue : Matcher := fun _ => .ok true

/-! ### The extraction session (`fetch_page`) -/

/-- Oracles recording the outcome of the external interactions of one
`fetch_page` call, under the cooperative single-threaded semantics:
`navOk` is whether `page.goto(url, wait_until="load")` returns normally,
`songScrape` / `artistScrape` are the results of the two
`page.text_content(..., timeout=5000)` calls (`none` when the call
raises, e.g. its sub-timeout elapses), and `responses` the network
responses delivered to the observer before the overall timeout
elapses. -/
structure FetchEnv where
  navOk : Bool
  songScrape : Option String
  artistScrape : Option String
  responses : List Resp
deriving Repr, DecidableEq

/-- The dictionary returned by a successful `fetch_page`. -/
structure MusicInfo where
  song_name : String
  artist_name : String
  mp3_url : String
deriving Repr, DecidableEq

/-- Which control path `fetch_page` exits through: the `return` of the
`try` body, the `except asyncio.TimeoutError` branch, or the
`except Exception` branch entered when navigation raises. -/
inductive ExitKind where
  | success : ExitKind
  | timeout : ExitKind
  | navError : ExitKind
deriving Repr, DecidableEq

/-- Outcome of one `fetch_page` call: the returned value, the exit path
taken, and how many `pool.release(page)` calls the function performed on
the acquired page. -/
structure FetchOutcome where
  result : Option MusicInfo
  exit : ExitKind
  releaseCount : Nat
deriving Repr, DecidableEq

/-- The scrape step of `fetch_page`: `song_name` and `artist_name` start
as `""` and one shared `try` block runs the two `text_content` calls in
order, so an exception in the first scrape also skips the second. -/
def scrapeFields : Option String → Option String → String × String
  | none, _ => ("", "")
  | some s, none => (s, "")
  | some s, some a => (s, a)

/-- `fetch_page(pool, context, url, filter_func, timeout)`:
acquire a page (blocking: `none` when the pool is exhausted — the call
has not completed), install `on_response`, navigate, best-effort scrape,
await the single-shot slot against the overall timeout, and in the
`finally` block release the page exactly once.  Returns the outcome and
the pool state after the call. -/
def fetch_page (env : FetchEnv) (filter_func : Option Matcher)
    (st : PoolState) : Option (FetchOutcome × PoolState) :=
  match getPage st with
  | none => none
  | some (page, st₁) =>
    let slot := deliver filter_func none env.responses
    let out : FetchOutcome :=
      if env.navOk then
        let fields := scrapeFields env.songScrape env.artistScrape
        match slot with
        | some url =>
          ⟨some ⟨fields.1, fields.2, url⟩, .success, 1⟩
        | none => ⟨none, .timeout, 1⟩
      else ⟨none, .navError, 1⟩
    some (out, release page st₁)

/-! ### Login check (`check_login`) and cookies -/

/-- A cookie as returned by `context.cookies()`: Playwright always
populates at least `name` and `value`. -/
structure BrowserCookie where
  name : String
  value : String
deriving Repr, DecidableEq

/-- `check_login`: collect the cookies whose name is one of the two
login markers and report whether any was found. -/
def check_login (cookies : List BrowserCookie) : Bool :=
  let login_cookie_names := ["MUSIC_U", "__csrf"]
  let found_cookies := cookies.filter (fun c => login_cookie_names.contains c.name)
  !found_cookies.isEmpty

/-! ### Cookie loader (`load_cookies_from_file`) -/

/-- A cookie record from the persisted JSON file, modelled as the
key/value mapping of the parsed JSON object (string-valued fields). -/
def JCookie : Type := List (String × String)

/-- Dictionary lookup (`cookie[k]` / `k in cookie`). -/
def getVal (c : JCookie) (k : String) : Option String :=
  (c.find? (fun kv => kv.1 = k)).map (·.2)

/-- Dictionary update of an existing key (`cookie[k] = v`). -/
def setVal (c : JCookie) (k v : String) : JCookie :=
  c.map (fun kv => if kv.1 = k then (k, v) else kv)

/-- Dictionary deletion (`del cookie[k]`; no-op when absent, matching
the `if field in cookie` guard). -/
def delKey (c : JCookie) (k : String) : JCookie :=
  c.filter (fun kv => kv.1 ≠ k)

/-- The per-cookie normalization loop body of `load_cookies_from_file`:
drop `storeId`, then force `sameSite` to `"Lax"` whenever it is present
with a value outside `{"Strict", "Lax", "None"}`. -/
def normalizeCookie (c : JCookie) : JCookie :=
  let c₁ := delKey c "storeId"
  match getVal c₁ "sameSite" with
  | some v =>
    if v = "Strict" ∨ v = "Lax" ∨ v = "None" then c₁
    else setVal c₁ "sameSite" "Lax"
  | none => c₁

/-- `load_cookies_from_file`: `parsed` is the result of reading and
JSON-decoding the file (`none` when either raises); any failure is
absorbed and yields `[]`, otherwise every cookie is normalized. -/
def load_cookies_from_file (parsed : Option (List JCookie)) : List JCookie :=
  match parsed with
  | none => []
  | some cookies => cookies.map normalizeCookie

/-! ### The orchestrator (`analyze_music_url`) -/

/-- Whether `s` contains `t` as a substring (used by the `.mp3`/`.m4a`
response filter defined inside `analyze_music_url`). -/
def containsSub (s t : String) : Bool := (s.splitOn t).length ≥ 2

/-- The `filter_func` closure defined in `analyze_music_url`: accept a
response iff its URL contains `".mp3"` or `".m4a"`; never raises. -/
def analyzeFilter : Matcher :=
  fun resp => .ok (containsSub resp.url ".mp3" || containsSub resp.url ".m4a")

/-- Oracles for one `analyze_music_url` call: whether
`page.goto("https://music.163.com/")` returns normally, the cookie set
the login check sees, and the oracles of the inner `fetch_page` call. -/
structure AnalyzeEnv where
  loginNavOk : Bool
  loginCookies : List BrowserCookie
  fetch : FetchEnv
deriving Repr, DecidableEq

/-- Outcome of `analyze_music_url`: the value produced (`Except.error`
when an exception propagates out of the `try`/`finally`, `Except.ok` for
a normal return), the final pool state, and how many `pool.release`
calls were performed on the page borrowed for the login check. -/
structure AnalyzeOutcome where
  result : Except Unit (Option MusicInfo)
  finalPool : PoolState
  loginPageReleases : Nat
deriving Repr

/-- `analyze_music_url(url)`: build a one-page pool, borrow a page,
navigate to the login page, run `check_login`; on failure `return None`
(no release); on success release the page and run `fetch_page` with
`analyzeFilter` and discard results whose `mp3_url` is falsy.  The
`finally` block always runs `pool.close_all()`. -/
def analyze_music_url (env : AnalyzeEnv) : AnalyzeOutcome :=
  let st₀ := PoolState.init 1
  match getPage st₀ with
  | none => ⟨.error (), st₀, 0⟩
  | some (page, st₁) =>
    if ¬ env.loginNavOk then
      ⟨.error (), closeAll st₁, 0⟩
    else if ¬ check_login env.loginCookies then
      ⟨.ok none, closeAll st₁, 0⟩
    else
      let st₂ := release page st₁
      match fetch_page env.fetch (some analyzeFilter) st₂ with
      | none => ⟨.error (), closeAll st₂, 1⟩
      | some (out, st₃) =>
        let data :=
          match out.result with
          | none => none
          | some d => if d.mp3_url = "" then none else some d
        ⟨.ok data, closeAll st₃, 1⟩

/-! ### Concrete scenarios used to instantiate the theorems -/

/-- A session whose navigation succeeds, whose song-name scrape raises
and whose artist-name scrape would return `"Artist"`, with one matching
response. -/
def envScrape : FetchEnv := ⟨true, none, some "Artist", [⟨"http://a/x.mp3", 200⟩]⟩

/-- A session whose navigation raises and that receives no response. -/
def envNavFail : FetchEnv := ⟨false, none, none, []⟩

/-- A session whose navigation succeeds and that receives no response. -/
def envQuiet : FetchEnv := ⟨true, some "S", some "A", []⟩

/-- An `analyze_music_url` run whose login navigation succeeds but whose
cookie set carries neither login marker. -/
def envNoLogin : AnalyzeEnv := ⟨true, [⟨"other", "1"⟩], envQuiet⟩

/-- Two responses, both matching an always-true matcher. -/
def twoResponses : List Resp := [⟨"http://a/x.mp3", 200⟩, ⟨"http://a/y.mp3", 200⟩]

/-- A matcher that raises on status 0 and accepts everything else. -/
def fragileMatcher : Matcher :=
  fun resp => if resp.status = 0 then .error () else .ok true

/-- A persisted cookie whose `sameSite` value is outside the accepted
set and that carries a `storeId` field. -/
def cookieSample : JCookie :=
  [("name", "MUSIC_U"), ("value", "abc"), ("sameSite", "no_restriction"),
   ("storeId", "0")]

/-! ## Theorems -/

/-! ### Pool lemmas -/

theorem inv_init (n : Nat) : Inv (PoolState.init n) := by
  refine ⟨?_, ?_, ?_, ?_, ?_⟩ <;> simp [PoolState.init]

theorem contains_true_iff (l : List Nat) (a : Nat) :
    l.contains a = true ↔ a ∈ l := by
  simp

/-- `get_page` hands out a handle that is in the pool and busy afterwards,
was not busy before, and preserves the invariant and the capacity. -/
theorem getPage_spec (st : PoolState) (p : Nat) (st' : PoolState)
    (hInv : Inv st) (h : getPage st = some (p, st')) :
    Inv st' ∧ p ∈ st'.pool ∧ p ∈ st'.busy ∧ p ∉ st.busy ∧
      st'.maxPages = st.maxPages ∧ st'.busy = p :: st.busy := by
  obtain ⟨hsub, hndp, hndb, hlen, hfresh⟩ := hInv
  unfold getPage at h
  cases hf : st.pool.find? (fun q => !st.busy.contains q) with
  | some q =>
    rw [hf] at h
    simp only [Option.some.injEq, Prod.mk.injEq] at h
    obtain ⟨hp, hst⟩ := h
    subst hp
    have hmem : q ∈ st.pool := List.mem_of_find?_eq_some hf
    have hnb : q ∉ st.busy := by
      have := List.find?_some hf
      simpa using this
    subst hst
    refine ⟨⟨?_, hndp, ?_, hlen, hfresh⟩, hmem, ?_, hnb, rfl, rfl⟩
    · intro x hx
      rcases List.mem_cons.mp hx with h1 | h2
      · simpa [h1] using hmem
      · exact hsub h2
    · exact List.nodup_cons.mpr ⟨hnb, hndb⟩
    · exact List.mem_cons_self _ _
  | none =>
    rw [hf] at h
    by_cases hcap : st.pool.length < st.maxPages
    · rw [if_pos hcap] at h
      simp only [Option.some.injEq, Prod.mk.injEq] at h
      obtain ⟨hp, hst⟩ := h
      subst hst
      subst hp
      have hnpool : st.nextId ∉ st.pool :=
        fun hmem => absurd (hfresh st.nextId hmem) (lt_irrefl st.nextId)
      have hnb : st.nextId ∉ st.busy := fun hmem => hnpool (hsub hmem)
      refine ⟨⟨?_, ?_, ?_, ?_, ?_⟩, ?_, ?_, hnb, rfl, rfl⟩
      · intro x hx
        rcases List.mem_cons.mp hx with h1 | h2
        · simp [h1]
        · exact List.mem_append_left _ (hsub h2)
      · simpa [List.nodup_append] using ⟨hndp, hnpool⟩
      · exact List.nodup_cons.mpr ⟨hnb, hndb⟩
      · simpa using hcap
      · intro q hq
        rcases List.mem_append.mp hq with h1 | h2
        · exact Nat.lt_succ_of_lt (hfresh q h1)
        · simp at h2
          simp [h2]
      · simp
      · exact List.mem_cons_self _ _
    · rw [if_neg hcap] at h
      exact absurd h (by simp)

/-- `release` preserves the invariant. -/
theorem inv_release (p : Nat) (st : PoolState) (hInv : Inv st) :
    Inv (release p st) := by
  obtain ⟨hsub, hndp, hndb, hlen, hfresh⟩ := hInv
  unfold release
  by_cases hb : st.busy.contains p = true
  · rw [if_pos hb]
    exact ⟨fun x hx => hsub (List.erase_subset _ _ hx), hndp,
      List.Nodup.erase _ hndb, hlen, hfresh⟩
  · rw [if_neg hb]
    exact ⟨hsub, hndp, hndb, hlen, hfresh⟩

/-- After releasing a busy handle belonging to a well-formed pool, that
handle is free in the pool. -/
theorem release_frees (p : Nat) (st : PoolState) (hInv : Inv st)
    (hb : p ∈ st.busy) : isFree (release p st) p := by
  obtain ⟨hsub, _, hndb, _, _⟩ := hInv
  unfold release
  rw [if_pos ((contains_true_iff _ _).mpr hb)]
  exact ⟨hsub hb, List.Nodup.not_mem_erase hndb⟩

/-- `close_all` preserves the invariant. -/
theorem inv_closeAll (st : PoolState) (hInv : Inv st) : Inv (closeAll st) := by
  obtain ⟨_, _, _, _, _⟩ := hInv
  refine ⟨?_, ?_, ?_, ?_, ?_⟩ <;> simp [closeAll]

/-- When every pool page is busy and the pool is at capacity, `get_page`
blocks (the caller suspends on the condition variable). -/
theorem getPage_blocks (st : PoolState)
    (hfull : st.pool.length = st.maxPages)
    (hbusy : ∀ p ∈ st.pool, p ∈ st.busy) : getPage st = none := by
  unfold getPage
  have hf : st.pool.find? (fun p => !st.busy.contains p) = none := by
    rw [List.find?_eq_none]
    intro x hx
    simp [contains_true_iff, hbusy x hx]
  rw [hf, if_neg (by omega)]

/-- After a blocked `get_page`, releasing any busy handle makes the next
acquisition succeed. -/
theorem getPage_unblocks (st : PoolState) (p : Nat) (hInv : Inv st)
    (hb : p ∈ st.busy) : (getPage (release p st)).isSome := by
  have hfree := release_frees p st hInv hb
  unfold getPage
  have : ((release p st).pool.find?
      (fun q => !(release p st).busy.contains q)).isSome := by
    rw [List.find?_isSome]
    exact ⟨p, hfree.1, by simp [contains_true_iff, hfree.2]⟩
  cases hx : (release p st).pool.find? (fun q => !(release p st).busy.contains q) with
  | some q => simp
  | none => rw [hx] at this; simp at this

theorem inv_stepOp (st : PoolState) (op : PoolOp) (hInv : Inv st) :
    Inv (stepOp st op) := by
  cases op with
  | get =>
    unfold stepOp
    cases hg : getPage st with
    | some r => exact (getPage_spec st r.1 r.2 hInv (by rw [hg])).1
    | none => exact hInv
  | rel p => exact inv_release p st hInv
  | close => exact inv_closeAll st hInv

theorem inv_runOps (st : PoolState) (ops : List PoolOp) (hInv : Inv st) :
    Inv (runOps st ops) := by
  induction ops generalizing st with
  | nil => exact hInv
  | cons op ops ih => exact ih (stepOp st op) (inv_stepOp st op hInv)

theorem getPage_maxPages (st : PoolState) (p : Nat) (st' : PoolState)
    (h : getPage st = some (p, st')) : st'.maxPages = st.maxPages := by
  unfold getPage at h
  cases hf : st.pool.find? (fun q => !st.busy.contains q) with
  | some q =>
    rw [hf] at h
    simp only [Option.some.injEq, Prod.mk.injEq] at h
    rw [← h.2]
  | none =>
    rw [hf] at h
    by_cases hcap : st.pool.length < st.maxPages
    · rw [if_pos hcap] at h
      simp only [Option.some.injEq, Prod.mk.injEq] at h
      rw [← h.2]
    · rw [if_neg hcap] at h
      exact absurd h (by simp)

theorem maxPages_stepOp (st : PoolState) (op : PoolOp) :
    (stepOp st op).maxPages = st.maxPages := by
  cases op with
  | get =>
    unfold stepOp
    cases hg : getPage st with
    | some r => exact getPage_maxPages st r.1 r.2 (by rw [hg])
    | none => rfl
  | rel p =>
    show (release p st).maxPages = st.maxPages
    unfold release
    split <;> rfl
  | close => rfl

theorem maxPages_runOps (st : PoolState) (ops : List PoolOp) :
    (runOps st ops).maxPages = st.maxPages := by
  induction ops generalizing st with
  | nil => rfl
  | cons op ops ih => rw [runOps, List.foldl_cons, ← runOps, ih, maxPages_stepOp]

/-! ### Observer lemmas -/

theorem deliver_nil (filter_func : Option Matcher) (fut : Slot) :
    deliver filter_func fut [] = fut := rfl

/-- A resolved slot is never overwritten. -/
theorem on_response_resolved (filter_func : Option Matcher) (u : String)
    (resp : Resp) : on_response filter_func (some u) resp = some u := rfl

theorem deliver_resolved (filter_func : Option Matcher) (u : String)
    (rs : List Resp) : deliver filter_func (some u) rs = some u := by
  induction rs with
  | nil => rfl
  | cons r rs ih => simpa [deliver, List.foldl_cons] using ih

/-- Without a matcher (`filter_func=None`) the slot never resolves. -/
theorem deliver_noFilter (rs : List Resp) : deliver none none rs = none := by
  induction rs with
  | nil => rfl
  | cons r rs ih => simpa [deliver, List.foldl_cons, on_response] using ih

/-- First match wins: the final slot holds the URL of the first response
the matcher accepts. -/
theorem deliver_first_match (f : Matcher) (rs : List Resp) :
    deliver (some f) none rs = (rs.find? (matchHit f)).map (·.url) := by
  induction rs with
  | nil => rfl
  | cons r rs ih =>
    rw [deliver, List.foldl_cons, ← deliver]
    cases hm : f r with
    | ok b =>
      cases b with
      | true =>
        rw [show on_response (some f) none r = some r.url by
              simp [on_response, hm]]
        rw [deliver_resolved, List.find?_cons_of_pos _ (by simp [matchHit, hm])]
        rfl
      | false =>
        rw [show on_response (some f) none r = none by simp [on_response, hm]]
        rw [ih, List.find?_cons_of_neg _ (by simp [matchHit, hm])]
    | error e =>
      rw [show on_response (some f) none r = none by simp [on_response, hm]]
      rw [ih, List.find?_cons_of_neg _ (by simp [matchHit, hm])]

/-- The counting delivery computes the same final slot as `deliver`. -/
theorem deliverCounting_fst (filter_func : Option Matcher) (fut : Slot)
    (rs : List Resp) :
    (deliverCounting filter_func fut rs).1 = deliver filter_func fut rs := by
  induction rs generalizing fut with
  | nil => rfl
  | cons r rs ih =>
    rw [deliverCounting, deliver, List.foldl_cons, ← deliver]
    exact ih (on_response filter_func fut r)

/-- A matcher exception on one response leaves the slot unresolved and
delivery of the remaining responses proceeds from the unresolved slot. -/
theorem deliver_error_skip (f : Matcher) (r : Resp) (rs : List Resp)
    (he : f r = .error ()) :
    deliver (some f) none (r :: rs) = deliver (some f) none rs := by
  rw [deliver, List.foldl_cons, ← deliver,
    show on_response (some f) none r = none by simp [on_response, he]]

/-! ### Cookie dictionary lemmas -/

theorem getVal_delKey_self (c : JCookie) (k : String) :
    getVal (delKey c k) k = none := by
  unfold getVal delKey
  rw [show (List.filter (fun kv => decide (kv.1 ≠ k)) c).find? (fun kv => decide (kv.1 = k)) = none by
        rw [List.find?_eq_none]
        intro kv hkv
        have := (List.mem_filter.mp hkv).2
        simpa using this]
  rfl

theorem getVal_delKey_ne (c : JCookie) (k k' : String) (hne : k' ≠ k) :
    getVal (delKey c k) k' = getVal c k' := by
  unfold getVal delKey
  induction c with
  | nil => rfl
  | cons kv tl ih =>
    by_cases hk : kv.1 = k
    · rw [List.filter_cons_of_neg (by simpa using hk)]
      rw [List.find?_cons_of_neg _
        (by simp only [hk, decide_eq_true_eq]; exact fun h => hne h.symm)]
      exact ih
    · rw [List.filter_cons_of_pos (by simpa using hk)]
      by_cases hk' : kv.1 = k'
      · rw [List.find?_cons_of_pos _ (by simp [hk']),
          List.find?_cons_of_pos _ (by simp [hk'])]
      · rw [List.find?_cons_of_neg _ (by simp [hk']),
          List.find?_cons_of_neg _ (by simp [hk'])]
        exact ih

theorem getVal_setVal_same (c : JCookie) (k v w : String)
    (h : getVal c k = some v) : getVal (setVal c k w) k = some w := by
  unfold getVal setVal
  unfold getVal at h
  induction c with
  | nil => simp at h
  | cons kv tl ih =>
    by_cases hk : kv.1 = k
    · rw [List.map_cons, show (if kv.1 = k then (k, w) else kv) = (k, w) by rw [if_pos hk]]
      rw [List.find?_cons_of_pos _ (by simp)]
      rfl
    · rw [List.map_cons, show (if kv.1 = k then (k, w) else kv) = kv by rw [if_neg hk]]
      rw [List.find?_cons_of_neg _ (by simp [hk])]
      rw [List.find?_cons_of_neg _ (by simp [hk])] at h
      exact ih h

theorem getVal_setVal_ne (c : JCookie) (k k' v : String) (hne : k' ≠ k) :
    getVal (setVal c k v) k' = getVal c k' := by
  unfold getVal setVal
  induction c with
  | nil => rfl
  | cons kv tl ih =>
    by_cases hk : kv.1 = k
    · rw [List.map_cons, show (if kv.1 = k then (k, v) else kv) = (k, v) by rw [if_pos hk]]
      rw [List.find?_cons_of_neg _
          (by simp only [decide_eq_true_eq]; exact fun h => hne h.symm),
        List.find?_cons_of_neg _
          (by simp only [hk, decide_eq_true_eq]; exact fun h => hne h.symm)]
      exact ih
    · rw [List.map_cons, show (if kv.1 = k then (k, v) else kv) = kv by rw [if_neg hk]]
      by_cases hk' : kv.1 = k'
      · rw [List.find?_cons_of_pos _ (by simp [hk']),
          List.find?_cons_of_pos _ (by simp [hk'])]
      · rw [List.find?_cons_of_neg _ (by simp [hk']),
          List.find?_cons_of_neg _ (by simp [hk'])]
        exact ih

/-! ### `analyze_music_url` normal form -/

/-- Evaluating the concrete one-page pool of `analyze_music_url`:
the borrowed login page is handle `0`. -/
theorem analyze_music_url_eq (env : AnalyzeEnv) :
    analyze_music_url env =
      if ¬ env.loginNavOk then ⟨.error (), ⟨1, [], [], 1⟩, 0⟩
      else if ¬ check_login env.loginCookies then ⟨.ok none, ⟨1, [], [], 1⟩, 0⟩
      else
        match fetch_page env.fetch (some analyzeFilter) ⟨1, [0], [], 1⟩ with
        | none => ⟨.error (), ⟨1, [], [], 1⟩, 1⟩
        | some (out, st₃) =>
          ⟨.ok (match out.result with
                | none => none
                | some d => if d.mp3_url = "" then none else some d),
           closeAll st₃, 1⟩ := rfl

/-! ### Claim theorems -/

/-- C1: for every call of `fetch_page` that acquires a page, the page
handle is released back to the pool exactly once, whatever combination
of navigation failure, scrape failure, timeout or success the session
takes, and afterwards the page is free in the pool (no leak). -/
theorem fetch_page_releases_exactly_once (env : FetchEnv)
    (filter_func : Option Matcher) (st : PoolState) (page : Nat)
    (st₁ : PoolState) (hInv : Inv st) (hget : getPage st = some (page, st₁)) :
    ∃ out : FetchOutcome,
      fetch_page env filter_func st = some (out, release page st₁) ∧
      out.releaseCount = 1 ∧ isFree (release page st₁) page := by
  obtain ⟨hInv₁, _, hbusy, _, _, _⟩ := getPage_spec st page st₁ hInv hget
  have hfree := release_frees page st₁ hInv₁ hbusy
  cases hn : env.navOk with
  | false =>
    refine ⟨⟨none, ExitKind.navError, 1⟩, ?_, rfl, hfree⟩
    unfold fetch_page
    rw [hget]
    simp [hn]
  | true =>
    cases hd : deliver filter_func none env.responses with
    | none =>
      refine ⟨⟨none, ExitKind.timeout, 1⟩, ?_, rfl, hfree⟩
      unfold fetch_page
      rw [hget]
      simp [hn, hd]
    | some url =>
      refine ⟨⟨some ⟨(scrapeFields env.songScrape env.artistScrape).1,
        (scrapeFields env.songScrape env.artistScrape).2, url⟩,
        ExitKind.success, 1⟩, ?_, rfl, hfree⟩
      unfold fetch_page
      rw [hget]
      simp [hn, hd]

/-- C1 witness: a concrete failing (timeout) session on a fresh one-page
pool releases its page exactly once and leaves it free. -/
theorem fetch_page_releases_exactly_once_witness :
    ∃ out : FetchOutcome,
      fetch_page envQuiet none (PoolState.init 1) =
        some (out, release 0 ⟨1, [0], [0], 1⟩) ∧
      out.releaseCount = 1 ∧ isFree (release 0 ⟨1, [0], [0], 1⟩) 0 :=
  fetch_page_releases_exactly_once envQuiet none (PoolState.init 1) 0
    ⟨1, [0], [0], 1⟩ (inv_init 1) rfl

/-- C2: from an empty pool of any capacity `N ≥ 1`, every sequence of
acquisitions and releases keeps at most `N` handles, keeps `busy` a
subset of the pool with no handle both free and busy, an acquisition
with all handles busy at capacity suspends without returning a handle,
and a release lets a suspended acquisition succeed. -/
theorem pool_bounded_invariant (N : Nat) (hN : 1 ≤ N) (ops : List PoolOp) :
    (Inv (runOps (PoolState.init N) ops) ∧
      (runOps (PoolState.init N) ops).pool.length ≤ N ∧
      (runOps (PoolState.init N) ops).busy ⊆ (runOps (PoolState.init N) ops).pool ∧
      ∀ p : Nat, ¬ (isFree (runOps (PoolState.init N) ops) p ∧
        p ∈ (runOps (PoolState.init N) ops).busy)) ∧
    (∀ st : PoolState, st.pool.length = st.maxPages →
      (∀ p ∈ st.pool, p ∈ st.busy) → getPage st = none) ∧
    (∀ st : PoolState, ∀ p : Nat, Inv st → p ∈ st.busy →
      (getPage (release p st)).isSome) := by
  have hinv := inv_runOps (PoolState.init N) ops (inv_init N)
  have hmax := maxPages_runOps (PoolState.init N) ops
  refine ⟨⟨hinv, ?_, hinv.1, ?_⟩, getPage_blocks,
    fun st p h hb => getPage_unblocks st p h hb⟩
  · have hlen := hinv.2.2.2.1
    rw [hmax] at hlen
    simpa [PoolState.init] using hlen
  · rintro p ⟨⟨_, hnb⟩, hb⟩
    exact hnb hb

/-- C2 witness: capacity 1 with an acquire–acquire–release trace. -/
theorem pool_bounded_invariant_witness :
    (Inv (runOps (PoolState.init 1) [PoolOp.get, PoolOp.get, PoolOp.rel 0]) ∧
      (runOps (PoolState.init 1) [PoolOp.get, PoolOp.get, PoolOp.rel 0]).pool.length ≤ 1 ∧
      (runOps (PoolState.init 1) [PoolOp.get, PoolOp.get, PoolOp.rel 0]).busy ⊆
        (runOps (PoolState.init 1) [PoolOp.get, PoolOp.get, PoolOp.rel 0]).pool ∧
      ∀ p : Nat, ¬ (isFree (runOps (PoolState.init 1) [PoolOp.get, PoolOp.get, PoolOp.rel 0]) p ∧
        p ∈ (runOps (PoolState.init 1) [PoolOp.get, PoolOp.get, PoolOp.rel 0]).busy)) ∧
    (∀ st : PoolState, st.pool.length = st.maxPages →
      (∀ p ∈ st.pool, p ∈ st.busy) → getPage st = none) ∧
    (∀ st : PoolState, ∀ p : Nat, Inv st → p ∈ st.busy →
      (getPage (release p st)).isSome) :=
  pool_bounded_invariant 1 (by decide) [PoolOp.get, PoolOp.get, PoolOp.rel 0]

/-- C4: a `fetch_page` session whose matcher resolves no response within
the timeout returns no extraction result and exits through the timeout
branch (when navigation succeeded); conversely a result is returned only
from the success path, with the resolved slot's URL — never a partial
result from any other exit path. -/
theorem fetch_page_result_only_on_success (env : FetchEnv)
    (filter_func : Option Matcher) (st : PoolState) (out : FetchOutcome)
    (stF : PoolState) (hrun : fetch_page env filter_func st = some (out, stF)) :
    (deliver filter_func none env.responses = none → env.navOk = true →
      out.result = none ∧ out.exit = ExitKind.timeout) ∧
    (∀ d : MusicInfo, out.result = some d → out.exit = ExitKind.success ∧
      env.navOk = true ∧
      deliver filter_func none env.responses = some d.mp3_url) := by
  unfold fetch_page at hrun
  cases hg : getPage st with
  | none =>
    rw [hg] at hrun
    exact absurd hrun (by simp)
  | some pr =>
    obtain ⟨page, st₁⟩ := pr
    rw [hg] at hrun
    simp only [Option.some.injEq, Prod.mk.injEq] at hrun
    obtain ⟨hout, hstF⟩ := hrun
    subst hout
    constructor
    · intro hs hn
      simp [hn, hs]
    · intro d hd
      cases hn : env.navOk with
      | false =>
        rw [hn] at hd
        simp at hd
      | true =>
        rw [hn] at hd
        cases hs : deliver filter_func none env.responses with
        | none =>
          rw [hs] at hd
          simp at hd
        | some url =>
          rw [hs] at hd
          simp only [if_true] at hd
          simp at hd
          refine ⟨by simp [hn, hs], rfl, ?_⟩
          rw [← hd]

/-- C4 witness: a quiet session (no responses) on a fresh pool times out
with no result; the success clause holds vacuously there. -/
theorem fetch_page_result_only_on_success_witness :
    (FetchOutcome.result ⟨none, ExitKind.timeout, 1⟩ = none ∧
      FetchOutcome.exit ⟨none, ExitKind.timeout, 1⟩ = ExitKind.timeout) :=
  (fetch_page_result_only_on_success envQuiet none (PoolState.init 1)
    ⟨none, ExitKind.timeout, 1⟩ ⟨1, [0], [], 1⟩ rfl).1 rfl rfl

/-- C7: `check_login` returns true exactly when the cookie set contains
a cookie named `MUSIC_U` or `__csrf` (an OR of the two markers),
regardless of any other cookies present. -/
theorem check_login_iff_marker (cookies : List BrowserCookie) :
    check_login cookies = true ↔
      ∃ c ∈ cookies, c.name = "MUSIC_U" ∨ c.name = "__csrf" := by
  unfold check_login
  simp [List.isEmpty_iff, List.filter_eq_nil_iff]
  constructor
  · rintro ⟨c, hc, h⟩
    by_cases hm : c.name = "MUSIC_U"
    · exact ⟨c, hc, Or.inl hm⟩
    · exact ⟨c, hc, Or.inr (h hm)⟩
  · rintro ⟨c, hc, h | h⟩
    · exact ⟨c, hc, fun hn => absurd h hn⟩
    · exact ⟨c, hc, fun _ => h⟩

/-- C3 counterexample: with an always-true matcher and two responses the
observer evaluates the matcher once on the first response but zero times
— not exactly once — on the second, which arrives after resolution. -/
theorem observer_eval_count_counterexample :
    (deliverCounting (some alwaysTrue) none twoResponses).2 = [1, 0] ∧
    ¬ ∀ c ∈ (deliverCounting (some alwaysTrue) none twoResponses).2, c = 1 := by
  decide

/-- C3 (amended): the observer evaluates the matcher exactly once for
every response received while the slot is unresolved; once the slot has
resolved, later responses — matching or not — are ignored without
evaluating the matcher, and the slot keeps the URL of the first matching
response (first match wins). -/
theorem observer_first_match_wins (f : Matcher) (rs : List Resp)
    (fut : Slot) (u : String) (r : Resp) :
    (fut = none → matcherEvalCount (some f) fut = 1) ∧
    matcherEvalCount (some f) (some u) = 0 ∧
    on_response (some f) (some u) r = some u ∧
    (deliverCounting (some f) none rs).1 =
      (rs.find? (matchHit f)).map (·.url) := by
  refine ⟨fun h => by rw [h]; rfl, rfl, rfl, ?_⟩
  rw [deliverCounting_fst, deliver_first_match]

/-- C3 witness: an unresolved slot evaluates the matcher once, and two
always-matching responses resolve to the first URL. -/
theorem observer_first_match_wins_witness :
    matcherEvalCount (some alwaysTrue) none = 1 ∧
    (deliverCounting (some alwaysTrue) none twoResponses).1 =
      some "http://a/x.mp3" := by
  refine ⟨(observer_first_match_wins alwaysTrue twoResponses none "u" ⟨"r", 200⟩).1 rfl, ?_⟩
  rw [(observer_first_match_wins alwaysTrue twoResponses none "u" ⟨"r", 200⟩).2.2.2]
  rfl

/-- C5 counterexample: in a session whose track-name scrape fails while
the artist-name scrape would return `"Artist"`, the returned artist
field is `""`, not the scraped value: the two fields do not fail
independently, because one shared `try` block covers both scrapes. -/
theorem scrape_not_independent_counterexample :
    fetch_page envScrape (some alwaysTrue) (PoolState.init 1) =
      some (⟨some ⟨"", "", "http://a/x.mp3"⟩, ExitKind.success, 1⟩,
        ⟨1, [0], [], 1⟩) ∧
    ("" : String) ≠ "Artist" := by
  exact ⟨rfl, by decide⟩

/-- C5 (amended): each scrape carries its own sub-timeout and no
exception escapes the scrape step, but the two scrapes share one `try`
block: a track-name failure also yields `""` for the artist field (the
artist scrape is skipped); an artist-name failure alone keeps the track
name and yields `""` for the artist only; a successful session's fields
are exactly these scraped fields. -/
theorem scrape_shared_try (s a : String) (oa : Option String)
    (env : FetchEnv) (filter_func : Option Matcher) (st : PoolState)
    (out : FetchOutcome) (stF : PoolState) (d : MusicInfo)
    (hrun : fetch_page env filter_func st = some (out, stF))
    (hd : out.result = some d) :
    scrapeFields none oa = ("", "") ∧
    scrapeFields (some s) none = (s, "") ∧
    scrapeFields (some s) (some a) = (s, a) ∧
    d.song_name = (scrapeFields env.songScrape env.artistScrape).1 ∧
    d.artist_name = (scrapeFields env.songScrape env.artistScrape).2 := by
  refine ⟨by cases oa <;> rfl, rfl, rfl, ?_, ?_⟩ <;>
  · unfold fetch_page at hrun
    cases hg : getPage st with
    | none =>
      rw [hg] at hrun
      exact absurd hrun (by simp)
    | some pr =>
      obtain ⟨page, st₁⟩ := pr
      rw [hg] at hrun
      simp only [Option.some.injEq, Prod.mk.injEq] at hrun
      obtain ⟨hout, hstF⟩ := hrun
      subst hout
      cases hn : env.navOk with
      | false =>
        rw [hn] at hd
        simp at hd
      | true =>
        rw [hn] at hd
        cases hs : deliver filter_func none env.responses with
        | none =>
          rw [hs] at hd
          simp at hd
        | some url =>
          rw [hs] at hd
          simp at hd
          rw [← hd]

/-- C5 witness: the concrete session of the counterexample satisfies the
amended description (song scrape failed, so both fields are `""`). -/
theorem scrape_shared_try_witness :
    scrapeFields none (some "x") = ("", "") ∧
    scrapeFields (some "s") none = ("s", "") ∧
    scrapeFields (some "s") (some "x") = ("s", "x") ∧
    MusicInfo.song_name ⟨"", "", "http://a/x.mp3"⟩ =
      (scrapeFields envScrape.songScrape envScrape.artistScrape).1 ∧
    MusicInfo.artist_name ⟨"", "", "http://a/x.mp3"⟩ =
      (scrapeFields envScrape.songScrape envScrape.artistScrape).2 :=
  scrape_shared_try "s" "x" (some "x") envScrape (some alwaysTrue)
    (PoolState.init 1) ⟨some ⟨"", "", "http://a/x.mp3"⟩, ExitKind.success, 1⟩
    ⟨1, [0], [], 1⟩ ⟨"", "", "http://a/x.mp3"⟩ rfl rfl

/-- C9: a matcher exception on a response is absorbed by the observer:
it does not propagate, that response does not resolve the slot, and
delivery continues, so a later matching response still resolves the
session with its URL (the first subsequent match wins). -/
theorem matcher_exception_absorbed (f : Matcher) (r : Resp) (rs : List Resp)
    (he : f r = .error ()) :
    on_response (some f) none r = none ∧
    matcherEvalCount (some f) none = 1 ∧
    deliver (some f) none (r :: rs) = (rs.find? (matchHit f)).map (·.url) := by
  refine ⟨by simp [on_response, he], rfl, ?_⟩
  rw [deliver_error_skip f r rs he, deliver_first_match]

/-- C9 witness: a matcher that raises on the first response and accepts
the second still resolves with the second URL. -/
theorem matcher_exception_absorbed_witness :
    on_response (some fragileMatcher) none ⟨"x", 0⟩ = none ∧
    matcherEvalCount (some fragileMatcher) none = 1 ∧
    deliver (some fragileMatcher) none [⟨"x", 0⟩, ⟨"http://a/y.mp3", 200⟩] =
      (([⟨"http://a/y.mp3", 200⟩] : List Resp).find?
        (matchHit fragileMatcher)).map (·.url) :=
  matcher_exception_absorbed fragileMatcher ⟨"x", 0⟩
    [⟨"http://a/y.mp3", 200⟩] rfl

/-- C10 counterexample: a `fetch_page` call with `filter_func=None`
whose navigation raises returns `None` through the error path, before
any timeout elapses — not through the timeout path. -/
theorem no_filter_nav_error_counterexample :
    fetch_page envNavFail none (PoolState.init 1) =
      some (⟨none, ExitKind.navError, 1⟩, ⟨1, [0], [], 1⟩) ∧
    ExitKind.navError ≠ ExitKind.timeout := by
  exact ⟨rfl, by decide⟩

/-- C10 (amended): with `filter_func=None` no response ever resolves the
result slot and every completed `fetch_page` call returns `None`; when
navigation succeeds, the call exits through the timeout path. -/
theorem no_filter_always_none (env : FetchEnv) (st : PoolState)
    (out : FetchOutcome) (stF : PoolState)
    (hrun : fetch_page env none st = some (out, stF)) :
    deliver none none env.responses = none ∧ out.result = none ∧
    (env.navOk = true → out.exit = ExitKind.timeout) := by
  have hz := deliver_noFilter env.responses
  unfold fetch_page at hrun
  cases hg : getPage st with
  | none =>
    rw [hg] at hrun
    exact absurd hrun (by simp)
  | some pr =>
    obtain ⟨page, st₁⟩ := pr
    rw [hg] at hrun
    simp only [Option.some.injEq, Prod.mk.injEq] at hrun
    obtain ⟨hout, hstF⟩ := hrun
    subst hout
    cases hn : env.navOk with
    | false => exact ⟨hz, by simp [hn], by simp [hn]⟩
    | true => exact ⟨hz, by simp [hn, hz], by simp [hn, hz]⟩

/-- C10 witness: a quiet session with no matcher times out with no
result. -/
theorem no_filter_always_none_witness :
    deliver none none envQuiet.responses = none ∧
    FetchOutcome.result ⟨none, ExitKind.timeout, 1⟩ = none ∧
    (envQuiet.navOk = true →
      FetchOutcome.exit ⟨none, ExitKind.timeout, 1⟩ = ExitKind.timeout) :=
  no_filter_always_none envQuiet (PoolState.init 1)
    ⟨none, ExitKind.timeout, 1⟩ ⟨1, [0], [], 1⟩ rfl

/-- C6 counterexample: when the login check fails, `analyze_music_url`
returns `None` without ever calling `release` on the page borrowed for
the login check — zero releases, so the handle is not returned to the
pool via `release` before the function exits. -/
theorem login_page_not_released_counterexample :
    (analyze_music_url envNoLogin).loginPageReleases = 0 ∧
    (analyze_music_url envNoLogin).loginPageReleases ≠ 1 ∧
    (analyze_music_url envNoLogin).result = Except.ok none := by
  refine ⟨rfl, by decide, rfl⟩

/-- C6 (amended): `analyze_music_url` releases the login-check page via
`release` only on the path where the login check passes (just before
invoking `fetch_page`); on the login-navigation-failure and
login-check-failure paths the handle is never released, and instead the
`finally` block's `close_all` empties the pool, so no handle remains
busy after exit on any path. -/
theorem login_page_release_discipline (env : AnalyzeEnv) :
    (analyze_music_url env).finalPool.busy = [] ∧
    (analyze_music_url env).finalPool.pool = [] ∧
    (env.loginNavOk = true → check_login env.loginCookies = true →
      (analyze_music_url env).loginPageReleases = 1) ∧
    (env.loginNavOk = true → check_login env.loginCookies = false →
      (analyze_music_url env).loginPageReleases = 0 ∧
      (analyze_music_url env).result = Except.ok none) ∧
    (env.loginNavOk = false →
      (analyze_music_url env).loginPageReleases = 0) := by
  rw [analyze_music_url_eq]
  cases hn : env.loginNavOk with
  | false => simp
  | true =>
    cases hc : check_login env.loginCookies with
    | false => simp [closeAll]
    | true =>
      cases hf : fetch_page env.fetch (some analyzeFilter) ⟨1, [0], [], 1⟩ with
      | none => simp [closeAll]
      | some pr =>
        obtain ⟨out, st₃⟩ := pr
        simp [closeAll]

/-- C6 witness: on the concrete failed-login run the pool ends empty,
the login page was released zero times, and `None` is returned. -/
theorem login_page_release_discipline_witness :
    (analyze_music_url envNoLogin).finalPool.busy = [] ∧
    (analyze_music_url envNoLogin).loginPageReleases = 0 ∧
    (analyze_music_url envNoLogin).result = Except.ok none := by
  refine ⟨(login_page_release_discipline envNoLogin).1, ?_⟩
  exact (login_page_release_discipline envNoLogin).2.2.2.1 rfl rfl

/-- C8: the cookie loader returns `[]` on any read or parse failure;
otherwise every loaded cookie has an out-of-set `sameSite` value
rewritten to `"Lax"`, in-set `sameSite` values passed through unchanged,
the `storeId` field removed, and every other field unchanged. -/
theorem cookie_normalization (c : JCookie) (v k : String)
    (cs : List JCookie) :
    load_cookies_from_file none = [] ∧
    load_cookies_from_file (some cs) = cs.map normalizeCookie ∧
    getVal (normalizeCookie c) "storeId" = none ∧
    (getVal c "sameSite" = some v →
      ¬ (v = "Strict" ∨ v = "Lax" ∨ v = "None") →
      getVal (normalizeCookie c) "sameSite" = some "Lax") ∧
    (getVal c "sameSite" = some v →
      (v = "Strict" ∨ v = "Lax" ∨ v = "None") →
      getVal (normalizeCookie c) "sameSite" = some v) ∧
    (k ≠ "storeId" → k ≠ "sameSite" →
      getVal (normalizeCookie c) k = getVal c k) := by
  refine ⟨rfl, rfl, ?_, ?_, ?_, ?_⟩
  · simp only [normalizeCookie]
    cases hss : getVal (delKey c "storeId") "sameSite" with
    | none => exact getVal_delKey_self c "storeId"
    | some w =>
      show getVal (if w = "Strict" ∨ w = "Lax" ∨ w = "None"
        then delKey c "storeId"
        else setVal (delKey c "storeId") "sameSite" "Lax") "storeId" = none
      by_cases hw : w = "Strict" ∨ w = "Lax" ∨ w = "None"
      · rw [if_pos hw]
        exact getVal_delKey_self c "storeId"
      · rw [if_neg hw, getVal_setVal_ne _ _ _ _ (by decide)]
        exact getVal_delKey_self c "storeId"
  · intro hv hout
    have hss : getVal (delKey c "storeId") "sameSite" = some v := by
      rw [getVal_delKey_ne c "storeId" "sameSite" (by decide)]
      exact hv
    simp only [normalizeCookie]
    rw [hss]
    show getVal (if v = "Strict" ∨ v = "Lax" ∨ v = "None"
      then delKey c "storeId"
      else setVal (delKey c "storeId") "sameSite" "Lax") "sameSite" = some "Lax"
    rw [if_neg hout]
    exact getVal_setVal_same _ _ _ "Lax" hss
  · intro hv hin
    have hss : getVal (delKey c "storeId") "sameSite" = some v := by
      rw [getVal_delKey_ne c "storeId" "sameSite" (by decide)]
      exact hv
    simp only [normalizeCookie]
    rw [hss]
    show getVal (if v = "Strict" ∨ v = "Lax" ∨ v = "None"
      then delKey c "storeId"
      else setVal (delKey c "storeId") "sameSite" "Lax") "sameSite" = some v
    rw [if_pos hin]
    exact hss
  · intro hks hkss
    simp only [normalizeCookie]
    cases hss : getVal (delKey c "storeId") "sameSite" with
    | none => exact getVal_delKey_ne c "storeId" k hks
    | some w =>
      show getVal (if w = "Strict" ∨ w = "Lax" ∨ w = "None"
        then delKey c "storeId"
        else setVal (delKey c "storeId") "sameSite" "Lax") k = getVal c k
      by_cases hw : w = "Strict" ∨ w = "Lax" ∨ w = "None"
      · rw [if_pos hw]
        exact getVal_delKey_ne c "storeId" k hks
      · rw [if_neg hw, getVal_setVal_ne _ _ _ _ hkss]
        exact getVal_delKey_ne c "storeId" k hks

/-- C8 witness: a cookie with `sameSite` value `"no_restriction"` and a
`storeId` field is loaded with `sameSite` `"Lax"`, no `storeId`, and its
`name` field unchanged. -/
theorem cookie_normalization_witness :
    load_cookies_from_file none = [] ∧
    getVal (normalizeCookie cookieSample) "storeId" = none ∧
    getVal (normalizeCookie cookieSample) "sameSite" = some "Lax" ∧
    getVal (normalizeCookie cookieSample) "name" = getVal cookieSample "name" := by
  have h := cookie_normalization cookieSample "no_restriction" "name" []
  exact ⟨h.1, h.2.2.1, h.2.2.2.1 rfl (by decide),
    h.2.2.2.2.2 (by decide) (by decide)⟩

end MusicAnalysis
